import Mathlib

/-!
Shallow embedding of `tools/gen_palette.py` (bootfire repository).

The Python source computes with floating-point numbers; the embedding uses
real numbers (`ℝ`), reading every float literal and operation of the source
exactly.  Python `**` on non-negative bases is `Real.rpow`; Python `round`
(banker's rounding, half to even) is modelled by `pyRound`; Python ints are
`ℤ`.  Each definition mirrors one function of the source file.
-/

/-- Colors are (r, g, b) triples of reals, as the Python tuples of floats. -/
abbrev Color : Type := ℝ × ℝ × ℝ

/-- Gamma mode: the Python code passes either the string "srgb" or a string
parsing to a float; the builder only tests equality with "srgb" and otherwise
converts to a float, so the mode is a tagged value. -/
inductive GammaMode : Type
  | srgb : GammaMode
  | numeric (g : ℝ) : GammaMode

/-- Valid gamma modes per the spec: "srgb", or a positive real power. -/
def validGamma : GammaMode → Prop
  | GammaMode.srgb => True
  | GammaMode.numeric g => 0 < g

/-- Python `lerp(a, b, t) = a + (b - a) * t`. -/
def lerp (a b t : ℝ) : ℝ := a + (b - a) * t

/-- Python `srgb_to_linear`: two-piece sRGB decoding transfer function. -/
noncomputable def srgb_to_linear (c : ℝ) : ℝ :=
  if c ≤ 0.04045 then c / 12.92
  else ((c + 0.055) / 1.055) ^ (2.4 : ℝ)

/-- Python `linear_to_srgb`: clamps to [0,1], then applies the two-piece
sRGB encoding transfer function. -/
noncomputable def linear_to_srgb (c : ℝ) : ℝ :=
  let c2 := max 0 (min 1 c)
  if c2 ≤ 0.0031308 then 12.92 * c2
  else 1.055 * c2 ^ ((1 : ℝ) / 2.4) - 0.055

/-- Python `apply_gamma(rgb, gamma)`: identity for "srgb", otherwise the
per-channel power adjustment `c ** (1/gamma)`. -/
noncomputable def apply_gamma (rgb : Color) (mode : GammaMode) : Color :=
  match mode with
  | GammaMode.srgb => rgb
  | GammaMode.numeric g =>
      (rgb.1 ^ ((1 : ℝ) / g), rgb.2.1 ^ ((1 : ℝ) / g), rgb.2.2 ^ ((1 : ℝ) / g))

/-- Python `round` with no digits argument: round half to even, returning an
integer. -/
noncomputable def pyRound (x : ℝ) : ℤ :=
  if x - ⌊x⌋ < 1 / 2 then ⌊x⌋
  else if 1 / 2 < x - ⌊x⌋ then ⌊x⌋ + 1
  else if Even ⌊x⌋ then ⌊x⌋ else ⌊x⌋ + 1

/-- Python `to_dac(v) = max(0, min(63, int(round(v * 63.0))))`. -/
noncomputable def to_dac (v : ℝ) : ℤ :=
  max 0 (min 63 (pyRound (v * 63)))

/-- The segment-finding loop of `interpolate_stops`: scan adjacent stop
pairs in ascending order, return the first pair (p0,c0),(p1,c1) with
`p0 <= t <= p1`, or `none` when no pair matches (the Python loop then falls
through with the local variable `c` unassigned). -/
noncomputable def findSegment (t : ℝ) : List (ℝ × Color) → Option ((ℝ × Color) × (ℝ × Color))
  | s0 :: s1 :: rest =>
      if s0.1 ≤ t ∧ t ≤ s1.1 then some (s0, s1) else findSegment t (s1 :: rest)
  | _ => none

/-- Python `interpolate_stops(stops, t, gamma_mode)`.  Boundary branches
return the first/last stop color; the interior branch blends the matched
segment (linear-light pipeline for "srgb", naive component lerp otherwise);
finally, when the mode is not "srgb", `apply_gamma` is applied.  The two
`(0,0,0)` fallbacks stand for runtime errors of the Python source: an empty
stop list raises IndexError at `stops[0]`, and a fall-through of the scan
leaves `c` unassigned (NameError); the latter is proven unreachable below
(the scan-totality theorem), and the former is never reached since the sole
call site passes the fixed six-stop list. -/
noncomputable def interpolate_stops (stops : List (ℝ × Color)) (t : ℝ) (mode : GammaMode) : Color :=
  match stops with
  | [] => (0, 0, 0)
  | first :: rest =>
      let last := (first :: rest).getLast (List.cons_ne_nil first rest)
      let c : Color :=
        if t ≤ first.1 then first.2
        else if last.1 ≤ t then last.2
        else
          match findSegment t (first :: rest) with
          | some (s0, s1) =>
              let u := (t - s0.1) / (s1.1 - s0.1)
              match mode with
              | GammaMode.srgb =>
                  (linear_to_srgb (lerp (srgb_to_linear s0.2.1) (srgb_to_linear s1.2.1) u),
                   linear_to_srgb (lerp (srgb_to_linear s0.2.2.1) (srgb_to_linear s1.2.2.1) u),
                   linear_to_srgb (lerp (srgb_to_linear s0.2.2.2) (srgb_to_linear s1.2.2.2) u))
              | GammaMode.numeric _ =>
                  (lerp s0.2.1 s1.2.1 u, lerp s0.2.2.1 s1.2.2.1 u, lerp s0.2.2.2 s1.2.2.2 u)
          | none => (0, 0, 0)
      match mode with
      | GammaMode.srgb => c
      | GammaMode.numeric _ => apply_gamma c mode

/-- The fixed DOOM-like stop list of `build_fire_palette`. -/
noncomputable def fireStops : List (ℝ × Color) :=
  [(0, (0, 0, 0)),
   (0.15, (0.2, 0, 0)),
   (0.35, (0.8, 0, 0)),
   (0.55, (1, 0.35, 0)),
   (0.75, (1, 0.75, 0.1)),
   (1, (1, 1, 1))]

/-- Python `build_fire_palette(size, gamma_mode)`: sample
`t = i / (size - 1)` (or 0.0 when `size <= 1`) for `i in range(size)` and
quantize each channel with `to_dac`.  `range(size)` is empty for
non-positive `size`, hence `List.range size.toNat`. -/
noncomputable def build_fire_palette (size : ℤ) (mode : GammaMode) : List (ℤ × ℤ × ℤ) :=
  (List.range size.toNat).map (fun (i : ℕ) =>
    let t : ℝ := if 1 < size then (i : ℝ) / ((size : ℝ) - 1) else 0
    let c := interpolate_stops fireStops t mode
    (to_dac c.1, to_dac c.2.1, to_dac c.2.2))

/-- Uppercase hexadecimal digit characters, as produced by Python `%X`. -/
def hexDigit : ℕ → Char
  | 0 => '0' | 1 => '1' | 2 => '2' | 3 => '3'
  | 4 => '4' | 5 => '5' | 6 => '6' | 7 => '7'
  | 8 => '8' | 9 => '9' | 10 => 'A' | 11 => 'B'
  | 12 => 'C' | 13 => 'D' | 14 => 'E' | 15 => 'F'
  | _ => '*'

/-- Minimal uppercase hex digit string of a natural number (fuel-driven so
that it is structural; `n + 1` units of fuel always suffice since the
argument at least halves each step). -/
def toHexAux : ℕ → ℕ → List Char
  | 0, _ => []
  | fuel + 1, n =>
      if n < 16 then [hexDigit n]
      else toHexAux fuel (n / 16) ++ [hexDigit (n % 16)]

/-- Uppercase hex digits of `n`, minimal width, as Python `"%X" % n`. -/
def toHex (n : ℕ) : List Char := toHexAux (n + 1) n

/-- Zero-pad a digit string on the left to width 2, as the `02` in `%02X`. -/
def pad2 (s : List Char) : List Char := List.replicate (2 - s.length) '0' ++ s

/-- Python `f"{v:02X}"` for an integer: zero-padded width-2 uppercase hex;
a negative value carries a leading minus sign inside the width. -/
def format02X (v : ℤ) : List Char :=
  if 0 ≤ v then pad2 (toHex v.toNat)
  else '-' :: (List.replicate (1 - (toHex (-v).toNat).length) '0' ++ toHex (-v).toNat)

/-- One output line of `write_hex`: `0xRR 0xGG 0xBB`. -/
def hexLine (r g b : ℤ) : String :=
  String.mk (('0' :: 'x' :: format02X r) ++ (' ' :: '0' :: 'x' :: format02X g)
    ++ (' ' :: '0' :: 'x' :: format02X b))

/-- Python `write_hex`: one formatted line per palette entry. -/
def write_hex (pal : List (ℤ × ℤ × ℤ)) : List String :=
  pal.map (fun c => hexLine c.1 c.2.1 c.2.2)

/-- Python `write_raw`: append the three channel bytes of each entry, in
order, to a flat byte sequence.  `bytearray.extend` raises ValueError on a
value outside [0, 255], modelled by `none`. -/
def write_raw : List (ℤ × ℤ × ℤ) → Option (List ℤ)
  | [] => some []
  | (r, g, b) :: rest =>
      if 0 ≤ r ∧ r ≤ 255 ∧ 0 ≤ g ∧ g ≤ 255 ∧ 0 ≤ b ∧ b ≤ 255 then
        (write_raw rest).map (fun bs => r :: g :: b :: bs)
      else none

/-- Read a flat byte sequence back as consecutive (r, g, b) triplets, the
round-trip reader described by the spec for the raw format. -/
def read_triplets : List ℤ → List (ℤ × ℤ × ℤ)
  | r :: g :: b :: rest => (r, g, b) :: read_triplets rest
  | _ => []

/-- The sixteen uppercase hexadecimal digit characters. -/
def upperHexDigits : List Char :=
  ['0', '1', '2', '3', '4', '5', '6', '7', '8', '9', 'A', 'B', 'C', 'D', 'E', 'F']

/-! ### Helper lemmas -/

lemma pyRound_intCast (n : ℤ) : pyRound (n : ℝ) = n := by
  unfold pyRound
  rw [Int.floor_intCast]
  rw [if_pos]
  norm_num

lemma to_dac_zero : to_dac 0 = 0 := by
  unfold to_dac
  rw [show ((0 : ℝ) * 63) = ((0 : ℤ) : ℝ) by norm_num, pyRound_intCast]
  norm_num

lemma to_dac_one : to_dac 1 = 63 := by
  unfold to_dac
  rw [show ((1 : ℝ) * 63) = ((63 : ℤ) : ℝ) by norm_num, pyRound_intCast]
  norm_num

lemma to_dac_nonneg (v : ℝ) : 0 ≤ to_dac v := le_max_left 0 _

lemma to_dac_le (v : ℝ) : to_dac v ≤ 63 :=
  max_le (by norm_num) (min_le_left 63 _)

lemma apply_gamma_black (mode : GammaMode) (h : validGamma mode) :
    apply_gamma (0, 0, 0) mode = (0, 0, 0) := by
  cases mode with
  | srgb => rfl
  | numeric g =>
      simp only [apply_gamma]
      have hg : (0 : ℝ) < g := h
      rw [Real.zero_rpow (by positivity)]

lemma apply_gamma_white (mode : GammaMode) :
    apply_gamma (1, 1, 1) mode = (1, 1, 1) := by
  cases mode with
  | srgb => rfl
  | numeric g =>
      simp only [apply_gamma]
      rw [Real.one_rpow]

lemma interp_boundary_lo (t : ℝ) (ht : t ≤ 0) (mode : GammaMode) :
    interpolate_stops fireStops t mode = apply_gamma (0, 0, 0) mode := by
  unfold interpolate_stops fireStops
  simp only [List.getLast]
  rw [if_pos ht]
  cases mode with
  | srgb => rfl
  | numeric g => rfl

lemma interp_boundary_hi (t : ℝ) (ht : 1 ≤ t) (mode : GammaMode) :
    interpolate_stops fireStops t mode = apply_gamma (1, 1, 1) mode := by
  unfold interpolate_stops fireStops
  simp only [List.getLast]
  rw [if_neg (by linarith), if_pos ht]
  cases mode with
  | srgb => rfl
  | numeric g => rfl

lemma build_length (size : ℤ) (mode : GammaMode) :
    (build_fire_palette size mode).length = size.toNat := by
  unfold build_fire_palette
  rw [List.length_map, List.length_range]

lemma build_mem_bounds (size : ℤ) (mode : GammaMode) (c : ℤ × ℤ × ℤ)
    (hc : c ∈ build_fire_palette size mode) :
    (0 ≤ c.1 ∧ c.1 ≤ 63) ∧ (0 ≤ c.2.1 ∧ c.2.1 ≤ 63) ∧ (0 ≤ c.2.2 ∧ c.2.2 ≤ 63) := by
  unfold build_fire_palette at hc
  rcases List.mem_map.mp hc with ⟨i, _, rfl⟩
  refine ⟨⟨to_dac_nonneg _, to_dac_le _⟩, ⟨to_dac_nonneg _, to_dac_le _⟩,
    ⟨to_dac_nonneg _, to_dac_le _⟩⟩

lemma build_getElem (size : ℤ) (mode : GammaMode) (i : ℕ) (hi : i < size.toNat) :
    (build_fire_palette size mode)[i]? =
      some (let t : ℝ := if 1 < size then (i : ℝ) / ((size : ℝ) - 1) else 0
            let c := interpolate_stops fireStops t mode
            (to_dac c.1, to_dac c.2.1, to_dac c.2.2)) := by
  unfold build_fire_palette
  rw [List.getElem?_map, List.getElem?_range hi]
  rfl

lemma build_head (size : ℤ) (mode : GammaMode) (hmode : validGamma mode)
    (hsize : 1 ≤ size) :
    (build_fire_palette size mode)[0]? = some (0, 0, 0) := by
  have h0 : (0 : ℕ) < size.toNat := by omega
  rw [build_getElem size mode 0 h0]
  have ht : (if 1 < size then ((0 : ℕ) : ℝ) / ((size : ℝ) - 1) else 0) = (0 : ℝ) := by
    split <;> norm_num
  simp only [ht, interp_boundary_lo 0 le_rfl mode, apply_gamma_black mode hmode,
    to_dac_zero]

lemma build_last (size : ℤ) (mode : GammaMode) (hsize : 1 < size) :
    (build_fire_palette size mode)[size.toNat - 1]? = some (63, 63, 63) := by
  have h0 : size.toNat - 1 < size.toNat := by omega
  rw [build_getElem size mode (size.toNat - 1) h0]
  have hcast : ((size.toNat - 1 : ℕ) : ℝ) = (size : ℝ) - 1 := by
    have h2 : 1 ≤ size.toNat := by omega
    have h1 : ((size.toNat : ℕ) : ℝ) = (size : ℝ) := by
      exact_mod_cast Int.toNat_of_nonneg (show (0 : ℤ) ≤ size by omega)
    rw [Nat.cast_sub h2, Nat.cast_one, h1]
  have hne : (size : ℝ) - 1 ≠ 0 := by
    have : (1 : ℝ) < (size : ℝ) := by exact_mod_cast hsize
    linarith
  have ht : (if 1 < size then ((size.toNat - 1 : ℕ) : ℝ) / ((size : ℝ) - 1) else 0)
      = (1 : ℝ) := by
    rw [if_pos hsize, hcast, div_self hne]
  simp only [ht, interp_boundary_hi 1 le_rfl mode, apply_gamma_white mode, to_dac_one]

lemma findSegment_fire_isSome (t : ℝ) (h0 : 0 < t) (h1 : t < 1) :
    (findSegment t fireStops).isSome = true := by
  unfold fireStops
  simp only [findSegment]
  by_cases c1 : t ≤ 0.15
  · rw [if_pos ⟨le_of_lt h0, c1⟩]
    rfl
  · rw [if_neg (fun h => c1 h.2)]
    by_cases c2 : t ≤ 0.35
    · rw [if_pos ⟨le_of_lt (lt_of_not_le c1), c2⟩]
      rfl
    · rw [if_neg (fun h => c2 h.2)]
      by_cases c3 : t ≤ 0.55
      · rw [if_pos ⟨le_of_lt (lt_of_not_le c2), c3⟩]
        rfl
      · rw [if_neg (fun h => c3 h.2)]
        by_cases c4 : t ≤ 0.75
        · rw [if_pos ⟨le_of_lt (lt_of_not_le c3), c4⟩]
          rfl
        · rw [if_neg (fun h => c4 h.2)]
          rw [if_pos ⟨le_of_lt (lt_of_not_le c4), le_of_lt h1⟩]
          rfl

lemma findSegment_at_015 :
    findSegment (0.15 : ℝ) fireStops = some ((0, (0, 0, 0)), (0.15, (0.2, 0, 0))) := by
  unfold fireStops
  simp only [findSegment]
  rw [if_pos ⟨by norm_num, le_refl _⟩]

lemma findSegment_at_035 :
    findSegment (0.35 : ℝ) fireStops = some ((0.15, (0.2, 0, 0)), (0.35, (0.8, 0, 0))) := by
  unfold fireStops
  simp only [findSegment]
  rw [if_neg (by norm_num), if_pos ⟨by norm_num, le_refl _⟩]

lemma findSegment_at_055 :
    findSegment (0.55 : ℝ) fireStops = some ((0.35, (0.8, 0, 0)), (0.55, (1, 0.35, 0))) := by
  unfold fireStops
  simp only [findSegment]
  rw [if_neg (by norm_num), if_neg (by norm_num), if_pos ⟨by norm_num, le_refl _⟩]

lemma findSegment_at_075 :
    findSegment (0.75 : ℝ) fireStops = some ((0.55, (1, 0.35, 0)), (0.75, (1, 0.75, 0.1))) := by
  unfold fireStops
  simp only [findSegment]
  rw [if_neg (by norm_num), if_neg (by norm_num), if_neg (by norm_num),
    if_pos ⟨by norm_num, le_refl _⟩]

lemma interp_interior_srgb (t p0 p1 r0 g0 b0 r1 g1 b1 : ℝ)
    (h0 : ¬ t ≤ (0 : ℝ)) (h1 : ¬ (1 : ℝ) ≤ t)
    (hfind : findSegment t fireStops = some ((p0, (r0, g0, b0)), (p1, (r1, g1, b1)))) :
    interpolate_stops fireStops t GammaMode.srgb =
      (linear_to_srgb (lerp (srgb_to_linear r0) (srgb_to_linear r1) ((t - p0) / (p1 - p0))),
       linear_to_srgb (lerp (srgb_to_linear g0) (srgb_to_linear g1) ((t - p0) / (p1 - p0))),
       linear_to_srgb (lerp (srgb_to_linear b0) (srgb_to_linear b1) ((t - p0) / (p1 - p0)))) := by
  unfold interpolate_stops
  unfold fireStops at hfind ⊢
  simp only [List.getLast]
  rw [if_neg h0, if_neg h1, hfind]

lemma interp_interior_num (t g p0 p1 r0 g0 b0 r1 g1 b1 : ℝ)
    (h0 : ¬ t ≤ (0 : ℝ)) (h1 : ¬ (1 : ℝ) ≤ t)
    (hfind : findSegment t fireStops = some ((p0, (r0, g0, b0)), (p1, (r1, g1, b1)))) :
    interpolate_stops fireStops t (GammaMode.numeric g) =
      apply_gamma
        (lerp r0 r1 ((t - p0) / (p1 - p0)),
         lerp g0 g1 ((t - p0) / (p1 - p0)),
         lerp b0 b1 ((t - p0) / (p1 - p0)))
        (GammaMode.numeric g) := by
  unfold interpolate_stops
  unfold fireStops at hfind ⊢
  simp only [List.getLast]
  rw [if_neg h0, if_neg h1, hfind]

lemma apply_gamma_numeric (x y z g : ℝ) :
    apply_gamma (x, y, z) (GammaMode.numeric g) =
      (x ^ ((1 : ℝ) / g), y ^ ((1 : ℝ) / g), z ^ ((1 : ℝ) / g)) := rfl

lemma lerp_one (a b : ℝ) : lerp a b 1 = b := by
  unfold lerp
  ring

lemma srgb_to_linear_zero : srgb_to_linear 0 = 0 := by
  unfold srgb_to_linear
  rw [if_pos (by norm_num)]
  norm_num

lemma linear_to_srgb_zero : linear_to_srgb 0 = 0 := by
  unfold linear_to_srgb
  rw [show max (0 : ℝ) (min 1 0) = 0 by norm_num]
  rw [if_pos (by norm_num)]
  norm_num

lemma roundtrip_power (c : ℝ) (hlo : (0.04045 : ℝ) < c) (hhi : c ≤ 1)
    (hbig : (0.0031308 : ℝ) < ((c + 0.055) / 1.055) ^ (2.4 : ℝ)) :
    linear_to_srgb (srgb_to_linear c) = c := by
  have hbase0 : (0 : ℝ) < (c + 0.055) / 1.055 := div_pos (by linarith) (by norm_num)
  have hbase1 : (c + 0.055) / 1.055 ≤ 1 := by
    rw [div_le_one (by norm_num)]
    linarith
  unfold srgb_to_linear
  rw [if_neg (not_le.mpr hlo)]
  unfold linear_to_srgb
  have hv0 : (0 : ℝ) ≤ ((c + 0.055) / 1.055) ^ (2.4 : ℝ) :=
    Real.rpow_nonneg (le_of_lt hbase0) _
  have hv1 : ((c + 0.055) / 1.055) ^ (2.4 : ℝ) ≤ 1 :=
    Real.rpow_le_one (le_of_lt hbase0) hbase1 (by norm_num)
  rw [show max 0 (min 1 (((c + 0.055) / 1.055) ^ (2.4 : ℝ)))
      = ((c + 0.055) / 1.055) ^ (2.4 : ℝ) by rw [min_eq_right hv1, max_eq_right hv0]]
  rw [if_neg (not_le.mpr hbig)]
  rw [← Real.rpow_mul (le_of_lt hbase0)]
  rw [show (2.4 : ℝ) * (1 / 2.4) = 1 by norm_num, Real.rpow_one]
  field_simp

lemma rpow_24_of_cube (c : ℝ) (hpos : (0 : ℝ) < (c + 0.055) / 1.055)
    (hle : (c + 0.055) / 1.055 ≤ 1)
    (hcube : (0.0031308 : ℝ) < ((c + 0.055) / 1.055) ^ (3 : ℕ)) :
    (0.0031308 : ℝ) < ((c + 0.055) / 1.055) ^ (2.4 : ℝ) := by
  have h3 : ((c + 0.055) / 1.055) ^ ((3 : ℕ) : ℝ) = ((c + 0.055) / 1.055) ^ (3 : ℕ) :=
    Real.rpow_natCast _ 3
  have hle24 : ((c + 0.055) / 1.055) ^ ((3 : ℕ) : ℝ) ≤ ((c + 0.055) / 1.055) ^ (2.4 : ℝ) :=
    Real.rpow_le_rpow_of_exponent_ge hpos hle (by norm_num)
  calc (0.0031308 : ℝ) < ((c + 0.055) / 1.055) ^ (3 : ℕ) := hcube
    _ = ((c + 0.055) / 1.055) ^ ((3 : ℕ) : ℝ) := h3.symm
    _ ≤ ((c + 0.055) / 1.055) ^ (2.4 : ℝ) := hle24

lemma roundtrip_at (c : ℝ) (hlo : (0.04045 : ℝ) < c) (hhi : c ≤ 1)
    (hcube : (0.0031308 : ℝ) < ((c + 0.055) / 1.055) ^ (3 : ℕ)) :
    linear_to_srgb (srgb_to_linear c) = c :=
  roundtrip_power c hlo hhi
    (rpow_24_of_cube c (div_pos (by linarith) (by norm_num))
      (by rw [div_le_one (by norm_num)]; linarith) hcube)

/-! ### Claim theorems -/

/-- C1: for every integer size >= 1 and every gamma mode ("srgb" or a
positive real), `build_fire_palette` returns a sequence of exactly `size`
triplets, and every component of every triplet is an integer in [0, 63]
(the final `to_dac` quantization clamps to [0, 63] regardless of upstream
values). -/
theorem palette_length_and_range (size : ℤ) (mode : GammaMode)
    (hmode : validGamma mode) (hsize : 1 ≤ size) :
    ((build_fire_palette size mode).length : ℤ) = size ∧
    ∀ c ∈ build_fire_palette size mode,
      (0 ≤ c.1 ∧ c.1 ≤ 63) ∧ (0 ≤ c.2.1 ∧ c.2.1 ≤ 63) ∧ (0 ≤ c.2.2 ∧ c.2.2 ≤ 63) := by
  constructor
  · rw [build_length]
    exact_mod_cast Int.toNat_of_nonneg (by omega)
  · exact fun c hc => build_mem_bounds size mode c hc

/-- Witness for C1 at size = 1, mode = "srgb". -/
theorem palette_length_and_range_witness :
    validGamma GammaMode.srgb ∧ (1 : ℤ) ≤ 1 ∧
    (((build_fire_palette 1 GammaMode.srgb).length : ℤ) = 1 ∧
     ∀ c ∈ build_fire_palette 1 GammaMode.srgb,
       (0 ≤ c.1 ∧ c.1 ≤ 63) ∧ (0 ≤ c.2.1 ∧ c.2.1 ≤ 63) ∧ (0 ≤ c.2.2 ∧ c.2.2 ≤ 63)) :=
  ⟨trivial, le_refl 1, palette_length_and_range 1 GammaMode.srgb trivial (le_refl 1)⟩

/-- C2: for size > 1 the first palette entry is the quantized first-stop
color (black, quantizing to (0,0,0) in both modes since the numeric power
adjustment fixes 0) and the last entry is the quantized last-stop color
(white, quantizing to (63,63,63) since the power adjustment fixes 1); for
size = 1 the single entry is the quantized first-stop color because the
sample is taken at t = 0. -/
theorem palette_endpoints (size : ℤ) (mode : GammaMode) (hmode : validGamma mode) :
    (1 < size →
      (build_fire_palette size mode)[0]? = some (0, 0, 0) ∧
      (build_fire_palette size mode)[size.toNat - 1]? = some (63, 63, 63)) ∧
    (size = 1 → build_fire_palette size mode = [(0, 0, 0)]) := by
  constructor
  · intro h
    exact ⟨build_head size mode hmode (by omega), build_last size mode h⟩
  · intro h
    subst h
    have h0 := build_head 1 mode hmode le_rfl
    have hlen : (build_fire_palette 1 mode).length = 1 := by
      rw [build_length]
      rfl
    apply List.ext_getElem?
    intro i
    match i with
    | 0 =>
        rw [h0]
        rfl
    | (n + 1) =>
        rw [List.getElem?_eq_none (by rw [hlen]; omega),
          List.getElem?_eq_none (by norm_num)]

/-- Witness for C2 at size = 3, mode = numeric gamma 2. -/
theorem palette_endpoints_witness :
    validGamma (GammaMode.numeric 2) ∧
    ((1 < (3 : ℤ) →
      (build_fire_palette 3 (GammaMode.numeric 2))[0]? = some (0, 0, 0) ∧
      (build_fire_palette 3 (GammaMode.numeric 2))[(3 : ℤ).toNat - 1]? = some (63, 63, 63)) ∧
    ((3 : ℤ) = 1 → build_fire_palette 3 (GammaMode.numeric 2) = [(0, 0, 0)])) :=
  ⟨by norm_num [validGamma],
    palette_endpoints 3 (GammaMode.numeric 2) (by norm_num [validGamma])⟩

/-- C3: for t at or outside the boundary stops, symbolic sRGB mode returns
the stop color with no per-channel gamma adjustment, while numeric gamma
mode g still applies the post-hoc power adjustment c ** (1/g) per channel;
the asymmetry holds for every numeric g > 0. -/
theorem boundary_gamma_asymmetry (t g : ℝ) (hg : 0 < g) :
    (t ≤ 0 →
      interpolate_stops fireStops t GammaMode.srgb = (0, 0, 0) ∧
      interpolate_stops fireStops t (GammaMode.numeric g) =
        ((0 : ℝ) ^ ((1 : ℝ) / g), (0 : ℝ) ^ ((1 : ℝ) / g), (0 : ℝ) ^ ((1 : ℝ) / g))) ∧
    (1 ≤ t →
      interpolate_stops fireStops t GammaMode.srgb = (1, 1, 1) ∧
      interpolate_stops fireStops t (GammaMode.numeric g) =
        ((1 : ℝ) ^ ((1 : ℝ) / g), (1 : ℝ) ^ ((1 : ℝ) / g), (1 : ℝ) ^ ((1 : ℝ) / g))) := by
  constructor
  · intro ht
    exact ⟨interp_boundary_lo t ht GammaMode.srgb,
      interp_boundary_lo t ht (GammaMode.numeric g)⟩
  · intro ht
    exact ⟨interp_boundary_hi t ht GammaMode.srgb,
      interp_boundary_hi t ht (GammaMode.numeric g)⟩

/-- Witness for C3 at t = 0, g = 2. -/
theorem boundary_gamma_asymmetry_witness :
    interpolate_stops fireStops 0 (GammaMode.numeric 2) =
      ((0 : ℝ) ^ ((1 : ℝ) / 2), (0 : ℝ) ^ ((1 : ℝ) / 2), (0 : ℝ) ^ ((1 : ℝ) / 2)) :=
  ((boundary_gamma_asymmetry 0 2 (by norm_num)).1 le_rfl).2

/-- C4 (code_bug evidence): `main` performs no positivity check on --size:
argparse accepts "--size 0" (type=int only), and `build_fire_palette(0, ...)`
is then invoked, returning the empty palette, so the program writes empty
output and exits 0 with no error message, contrary to the claimed
command-line-boundary validation. -/
theorem invalid_size_reaches_builder : build_fire_palette 0 GammaMode.srgb = [] := by
  unfold build_fire_palette
  rw [show (0 : ℤ).toNat = 0 from rfl, List.range_zero, List.map_nil]

/-- C8: build(2, "srgb") returns exactly [(0,0,0), (63,63,63)]: t samples 0
and 1 hit the first and last stop positions exactly, so the pure endpoint
colors are quantized with no interpolation. -/
theorem build_two_srgb : build_fire_palette 2 GammaMode.srgb = [(0, 0, 0), (63, 63, 63)] := by
  have hlen : (build_fire_palette 2 GammaMode.srgb).length = 2 := by
    rw [build_length]
    rfl
  have h0 := build_head 2 GammaMode.srgb trivial (by norm_num)
  have h1 := build_last 2 GammaMode.srgb (by norm_num)
  rw [show (2 : ℤ).toNat - 1 = 1 from rfl] at h1
  apply List.ext_getElem?
  intro i
  match i with
  | 0 =>
      rw [h0]
      rfl
  | 1 =>
      rw [h1]
      rfl
  | (n + 2) =>
      rw [List.getElem?_eq_none (by rw [hlen]; omega),
        List.getElem?_eq_none (by norm_num)]

/-- C9: for every t strictly between the first and the last stop position,
the ascending scan over the fixed stop list finds an adjacent pair with
p0 <= t <= p1, so the result variable of `interpolate_stops` is always
assigned before use: the fall-through branch is unreachable. -/
theorem segment_scan_total (t : ℝ) (h0 : 0 < t) (h1 : t < 1) :
    (findSegment t fireStops).isSome = true :=
  findSegment_fire_isSome t h0 h1

/-- Witness for C9 at t = 1/2. -/
theorem segment_scan_total_witness :
    (0 : ℝ) < 1 / 2 ∧ (1 : ℝ) / 2 < 1 ∧
    (findSegment ((1 : ℝ) / 2) fireStops).isSome = true :=
  ⟨by norm_num, by norm_num, segment_scan_total ((1 : ℝ) / 2) (by norm_num) (by norm_num)⟩

/-- C10: for every integer size <= 0 and either gamma mode,
`build_fire_palette` returns the empty sequence without error: the sampling
loop `range(size)` never executes. -/
theorem nonpositive_size_empty (size : ℤ) (mode : GammaMode) (h : size ≤ 0) :
    build_fire_palette size mode = [] := by
  unfold build_fire_palette
  rw [show size.toNat = 0 by omega, List.range_zero, List.map_nil]

/-- Witness for C10 at size = -3, mode = numeric gamma 2.2. -/
theorem nonpositive_size_empty_witness :
    (-3 : ℤ) ≤ 0 ∧ build_fire_palette (-3) (GammaMode.numeric 2.2) = [] :=
  ⟨by norm_num, nonpositive_size_empty (-3) (GammaMode.numeric 2.2) (by norm_num)⟩

lemma interp_015_srgb :
    interpolate_stops fireStops 0.15 GammaMode.srgb = ((0.2 : ℝ), 0, 0) := by
  rw [interp_interior_srgb 0.15 0 0.15 0 0 0 0.2 0 0 (by norm_num) (by norm_num)
    findSegment_at_015]
  rw [show ((0.15 : ℝ) - 0) / ((0.15 : ℝ) - 0) = 1 by norm_num]
  simp only [lerp_one]
  rw [srgb_to_linear_zero, linear_to_srgb_zero]
  rw [roundtrip_at 0.2 (by norm_num) (by norm_num) (by norm_num)]

lemma interp_035_srgb :
    interpolate_stops fireStops 0.35 GammaMode.srgb = ((0.8 : ℝ), 0, 0) := by
  rw [interp_interior_srgb 0.35 0.15 0.35 0.2 0 0 0.8 0 0 (by norm_num) (by norm_num)
    findSegment_at_035]
  rw [show ((0.35 : ℝ) - 0.15) / ((0.35 : ℝ) - 0.15) = 1 by norm_num]
  simp only [lerp_one]
  rw [srgb_to_linear_zero, linear_to_srgb_zero]
  rw [roundtrip_at 0.8 (by norm_num) (by norm_num) (by norm_num)]

lemma interp_055_srgb :
    interpolate_stops fireStops 0.55 GammaMode.srgb = ((1 : ℝ), 0.35, 0) := by
  rw [interp_interior_srgb 0.55 0.35 0.55 0.8 0 0 1 0.35 0 (by norm_num) (by norm_num)
    findSegment_at_055]
  rw [show ((0.55 : ℝ) - 0.35) / ((0.55 : ℝ) - 0.35) = 1 by norm_num]
  simp only [lerp_one]
  rw [srgb_to_linear_zero, linear_to_srgb_zero]
  rw [roundtrip_at 1 (by norm_num) (by norm_num) (by norm_num)]
  rw [roundtrip_at 0.35 (by norm_num) (by norm_num) (by norm_num)]

lemma interp_075_srgb :
    interpolate_stops fireStops 0.75 GammaMode.srgb = ((1 : ℝ), 0.75, 0.1) := by
  rw [interp_interior_srgb 0.75 0.55 0.75 1 0.35 0 1 0.75 0.1 (by norm_num) (by norm_num)
    findSegment_at_075]
  rw [show ((0.75 : ℝ) - 0.55) / ((0.75 : ℝ) - 0.55) = 1 by norm_num]
  simp only [lerp_one]
  rw [roundtrip_at 1 (by norm_num) (by norm_num) (by norm_num)]
  rw [roundtrip_at 0.75 (by norm_num) (by norm_num) (by norm_num)]
  rw [roundtrip_at 0.1 (by norm_num) (by norm_num) (by norm_num)]

lemma interp_015_num (g : ℝ) :
    interpolate_stops fireStops 0.15 (GammaMode.numeric g) =
      apply_gamma ((0.2 : ℝ), 0, 0) (GammaMode.numeric g) := by
  rw [interp_interior_num 0.15 g 0 0.15 0 0 0 0.2 0 0 (by norm_num) (by norm_num)
    findSegment_at_015]
  rw [show ((0.15 : ℝ) - 0) / ((0.15 : ℝ) - 0) = 1 by norm_num]
  simp only [lerp_one]

lemma interp_035_num (g : ℝ) :
    interpolate_stops fireStops 0.35 (GammaMode.numeric g) =
      apply_gamma ((0.8 : ℝ), 0, 0) (GammaMode.numeric g) := by
  rw [interp_interior_num 0.35 g 0.15 0.35 0.2 0 0 0.8 0 0 (by norm_num) (by norm_num)
    findSegment_at_035]
  rw [show ((0.35 : ℝ) - 0.15) / ((0.35 : ℝ) - 0.15) = 1 by norm_num]
  simp only [lerp_one]

lemma interp_055_num (g : ℝ) :
    interpolate_stops fireStops 0.55 (GammaMode.numeric g) =
      apply_gamma ((1 : ℝ), 0.35, 0) (GammaMode.numeric g) := by
  rw [interp_interior_num 0.55 g 0.35 0.55 0.8 0 0 1 0.35 0 (by norm_num) (by norm_num)
    findSegment_at_055]
  rw [show ((0.55 : ℝ) - 0.35) / ((0.55 : ℝ) - 0.35) = 1 by norm_num]
  simp only [lerp_one]

lemma interp_075_num (g : ℝ) :
    interpolate_stops fireStops 0.75 (GammaMode.numeric g) =
      apply_gamma ((1 : ℝ), 0.75, 0.1) (GammaMode.numeric g) := by
  rw [interp_interior_num 0.75 g 0.55 0.75 1 0.35 0 1 0.75 0.1 (by norm_num) (by norm_num)
    findSegment_at_075]
  rw [show ((0.75 : ℝ) - 0.55) / ((0.75 : ℝ) - 0.55) = 1 by norm_num]
  simp only [lerp_one]

/-- C5 counterexample: at t = 0.15 (an exact interior stop position) in
numeric gamma mode g = 2, `interpolate_stops` does NOT return the stop
color (0.2, 0, 0): the post-hoc power adjustment maps the red channel to
0.2 ** (1/2) = sqrt(0.2) which differs from 0.2. -/
theorem exact_stop_color_counterexample :
    interpolate_stops fireStops 0.15 (GammaMode.numeric 2) ≠ ((0.2 : ℝ), 0, 0) := by
  rw [interp_015_num 2, apply_gamma_numeric]
  intro h
  have h1 : (0.2 : ℝ) ^ ((1 : ℝ) / 2) = 0.2 := congrArg Prod.fst h
  have h2 : ((0.2 : ℝ) ^ ((1 : ℝ) / 2)) ^ ((2 : ℕ) : ℝ) = (0.2 : ℝ) := by
    rw [← Real.rpow_mul (by norm_num),
      show ((1 : ℝ) / 2) * ((2 : ℕ) : ℝ) = 1 by norm_num, Real.rpow_one]
  rw [h1, Real.rpow_natCast] at h2
  norm_num at h2

/-- C5 (amended): for every parameter t strictly between the first and last
stop positions that equals an interior stop position, the scan resolves the
tie to the segment ending at that stop (u = 1) and yields exactly that
stop's color from the blend: in symbolic sRGB mode `interpolate_stops`
returns exactly the stop color (the linearize-interpolate-delinearize round
trip at u = 1 reproduces it exactly), and in numeric gamma mode g > 0 it
returns that stop color with the per-channel power adjustment c ** (1/g)
applied — the same post-processing every interior sample receives. -/
theorem exact_stop_colors (g : ℝ) (hg : 0 < g) :
    (interpolate_stops fireStops 0.15 GammaMode.srgb = ((0.2 : ℝ), 0, 0) ∧
     interpolate_stops fireStops 0.15 (GammaMode.numeric g) =
       apply_gamma ((0.2 : ℝ), 0, 0) (GammaMode.numeric g)) ∧
    (interpolate_stops fireStops 0.35 GammaMode.srgb = ((0.8 : ℝ), 0, 0) ∧
     interpolate_stops fireStops 0.35 (GammaMode.numeric g) =
       apply_gamma ((0.8 : ℝ), 0, 0) (GammaMode.numeric g)) ∧
    (interpolate_stops fireStops 0.55 GammaMode.srgb = ((1 : ℝ), 0.35, 0) ∧
     interpolate_stops fireStops 0.55 (GammaMode.numeric g) =
       apply_gamma ((1 : ℝ), 0.35, 0) (GammaMode.numeric g)) ∧
    (interpolate_stops fireStops 0.75 GammaMode.srgb = ((1 : ℝ), 0.75, 0.1) ∧
     interpolate_stops fireStops 0.75 (GammaMode.numeric g) =
       apply_gamma ((1 : ℝ), 0.75, 0.1) (GammaMode.numeric g)) :=
  ⟨⟨interp_015_srgb, interp_015_num g⟩, ⟨interp_035_srgb, interp_035_num g⟩,
   ⟨interp_055_srgb, interp_055_num g⟩, ⟨interp_075_srgb, interp_075_num g⟩⟩

/-- Witness for the amended C5 at g = 2. -/
theorem exact_stop_colors_witness :
    interpolate_stops fireStops 0.15 (GammaMode.numeric 2) =
      apply_gamma ((0.2 : ℝ), 0, 0) (GammaMode.numeric 2) :=
  (exact_stop_colors 2 (by norm_num)).1.2

lemma raw_roundtrip_aux (pal : List (ℤ × ℤ × ℤ))
    (h : ∀ c ∈ pal,
      (0 ≤ c.1 ∧ c.1 ≤ 63) ∧ (0 ≤ c.2.1 ∧ c.2.1 ≤ 63) ∧ (0 ≤ c.2.2 ∧ c.2.2 ≤ 63)) :
    ∃ bytes, write_raw pal = some bytes ∧ bytes.length = 3 * pal.length ∧
      read_triplets bytes = pal := by
  induction pal with
  | nil => exact ⟨[], rfl, rfl, rfl⟩
  | cons hd tl ih =>
      obtain ⟨r, g, b⟩ := hd
      obtain ⟨bytes, hw, hl, hr⟩ := ih (fun c hc => h c (List.mem_cons_of_mem _ hc))
      have hb := h (r, g, b) (List.mem_cons_self _ _)
      dsimp only at hb
      refine ⟨r :: g :: b :: bytes, ?_, ?_, ?_⟩
      · simp only [write_raw]
        rw [if_pos ⟨hb.1.1, by omega, hb.2.1.1, by omega, hb.2.2.1, by omega⟩, hw]
        rfl
      · simp only [List.length_cons, hl]
        omega
      · simp only [read_triplets]
        rw [hr]

/-- C6: writing any palette produced by `build_fire_palette` with the raw
writer yields the flat byte sequence R0,G0,B0,R1,G1,B1,... of exactly
3 * size bytes (no separators, headers, or padding), and reading those
bytes back as consecutive triplets reproduces the original sequence
exactly. -/
theorem raw_roundtrip (size : ℤ) (mode : GammaMode) (hsize : 1 ≤ size) :
    ∃ bytes, write_raw (build_fire_palette size mode) = some bytes ∧
      (bytes.length : ℤ) = 3 * size ∧
      read_triplets bytes = build_fire_palette size mode := by
  obtain ⟨bytes, hw, hl, hr⟩ := raw_roundtrip_aux (build_fire_palette size mode)
    (fun c hc => build_mem_bounds size mode c hc)
  refine ⟨bytes, hw, ?_, hr⟩
  have htn : ((size.toNat : ℕ) : ℤ) = size :=
    Int.toNat_of_nonneg (by omega)
  rw [hl, build_length]
  push_cast [htn]
  ring

/-- Witness for C6 at size = 37, mode = "srgb". -/
theorem raw_roundtrip_witness :
    (1 : ℤ) ≤ 37 ∧
    ∃ bytes, write_raw (build_fire_palette 37 GammaMode.srgb) = some bytes ∧
      (bytes.length : ℤ) = 3 * 37 ∧
      read_triplets bytes = build_fire_palette 37 GammaMode.srgb :=
  ⟨by norm_num, raw_roundtrip 37 GammaMode.srgb (by norm_num)⟩

lemma hex_two_digits_all :
    ∀ n : ℕ, n < 64 →
      (pad2 (toHex n)).length = 2 ∧ ∀ ch ∈ pad2 (toHex n), ch ∈ upperHexDigits := by
  decide

/-- C7: for every palette entry with components in [0, 63], the hex writer
emits one line of three space-separated values 0xRR 0xGG 0xBB with exactly
two uppercase hexadecimal digits per channel; in particular the output for
the single triplet (63, 0, 0) is the line 0x3F 0x00 0x00. -/
theorem hex_format :
    (∀ r g b : ℤ, 0 ≤ r → r ≤ 63 → 0 ≤ g → g ≤ 63 → 0 ≤ b → b ≤ 63 →
      hexLine r g b = String.mk (('0' :: 'x' :: format02X r)
        ++ (' ' :: '0' :: 'x' :: format02X g) ++ (' ' :: '0' :: 'x' :: format02X b)) ∧
      ((format02X r).length = 2 ∧ ∀ ch ∈ format02X r, ch ∈ upperHexDigits) ∧
      ((format02X g).length = 2 ∧ ∀ ch ∈ format02X g, ch ∈ upperHexDigits) ∧
      ((format02X b).length = 2 ∧ ∀ ch ∈ format02X b, ch ∈ upperHexDigits)) ∧
    write_hex [(63, 0, 0)] = ["0x3F 0x00 0x00"] := by
  constructor
  · intro r g b hr0 hr1 hg0 hg1 hb0 hb1
    have hfmt : ∀ v : ℤ, 0 ≤ v → v ≤ 63 →
        (format02X v).length = 2 ∧ ∀ ch ∈ format02X v, ch ∈ upperHexDigits := by
      intro v h0 h1
      unfold format02X
      rw [if_pos h0]
      exact hex_two_digits_all v.toNat (by omega)
    exact ⟨rfl, hfmt r hr0 hr1, hfmt g hg0 hg1, hfmt b hb0 hb1⟩
  · rfl

/-- Witness for C7 at (63, 0, 0). -/
theorem hex_format_witness :
    (0 : ℤ) ≤ 63 ∧ (63 : ℤ) ≤ 63 ∧
    ((format02X (63 : ℤ)).length = 2 ∧ ∀ ch ∈ format02X (63 : ℤ), ch ∈ upperHexDigits) :=
  ⟨by norm_num, by norm_num,
    (hex_format.1 63 0 0 (by norm_num) (by norm_num) (by norm_num) (by norm_num)
      (by norm_num) (by norm_num)).2.1⟩
